import Mathlib

/-!
Shallow embedding of `src/ibmarketdata.py` (Sdoof/capsule): the
request-correlation and resilience engine of an IB market-data client.

Python dictionaries are modelled as association lists in insertion order
(`dictGet?`, `dictInsert`, `dictErase`, `dictContains` mirror `d[k]`,
`d[k] = v`, `del d[k]`, `k in d`).  Machine-level effects (log lines,
outbound protocol requests, record-store writes) are reified as values of
an `Effect` type collected in program order.  Handlers that in Python can
raise `KeyError` return `Option`: `none` is the uncaught key error, raised
before any effect is performed.  Numeric price fields, which the embedded
code only passes through and never computes with, are modelled as `Int`.
-/

/-- The subset of `ibapi.contract.Contract` fields this program reads or
writes.  A fresh `Contract()` has every field at its empty default. -/
structure Contract where
  symbol : String
  secType : String
  exchange : String
  tradingClass : String
  lastTradeDateOrContractMonth : String
  localSymbol : String
deriving DecidableEq, Repr

def Contract.empty : Contract :=
  { symbol := "", secType := "", exchange := "", tradingClass := "",
    lastTradeDateOrContractMonth := "", localSymbol := "" }

/-- The fields of `ibapi.contract.ContractDetails` the handler reads:
the summary contract and the market name. -/
structure ContractDetails where
  summary : Contract
  marketName : String
deriving DecidableEq, Repr

/-- One OHLCV bar (`ibapi.common.BarData`); prices as `Int` since the code
only forwards them. -/
structure BarData where
  date : String
  opn : Int
  high : Int
  low : Int
  close : Int
  volume : Int
  barCount : Int
deriving DecidableEq, Repr

/-- A record-store item from the `Securities` table scan, restricted to the
fields `IbApp.start` reads. -/
structure SecurityItem where
  Symbol : String
  ProductType : String
  Exchange : String
  SubscriptionEnabled : Bool
deriving DecidableEq, Repr

/-- Outbound protocol requests issued through the EClient API. -/
inductive Request where
  | currentTime : Request
  | contractDetailsReq : Nat → Contract → Request
  | historicalDataReq : Nat → Contract → Request
  | mktDataReq : Nat → Contract → Request
deriving DecidableEq, Repr

/-- Structured content of the log lines the handlers emit (the literal
format strings are out of scope; each constructor is one `Logger` call
site). -/
inductive LogMsg where
  | requestingServerTime : LogMsg
  | reRequestContract : String → LogMsg
  | reRequestHist : String → LogMsg
  | reRequestMkt : String → LogMsg
  | contractDetailsReceived : Contract → LogMsg
  | unknownContractDetailsReqId : Nat → LogMsg
  | unknownContractReceived : Contract → LogMsg
  | contractDetailsEndMsg : Nat → LogMsg
  | historicalDataMsg : String → BarData → LogMsg
  | tickPriceMsg : String → Nat → Int → LogMsg
  | startMsg : LogMsg
deriving DecidableEq, Repr

/-- An observable side effect of a handler, in program order. -/
inductive Effect where
  | logInfo : LogMsg → Effect
  | logWarning : LogMsg → Effect
  | send : Request → Effect
  | upsertQuote : String → String → Int → Int → Int → Int → Int → Int → Effect
deriving DecidableEq, Repr

/-- Python-dict lookup `d.get(k)` on an insertion-ordered association
list. -/
def dictGet? {α : Type} (l : List (Nat × α)) (k : Nat) : Option α :=
  (l.find? (fun kv => kv.1 == k)).map Prod.snd

/-- Python `k in d`. -/
def dictContains {α : Type} (l : List (Nat × α)) (k : Nat) : Bool :=
  (l.find? (fun kv => kv.1 == k)).isSome

/-- Python `d[k] = v`: update in place when the key exists, else append
(dicts preserve insertion order). -/
def dictInsert {α : Type} (l : List (Nat × α)) (k : Nat) (v : α) : List (Nat × α) :=
  if dictContains l k then l.map (fun kv => if kv.1 == k then (k, v) else kv)
  else l ++ [(k, v)]

/-- Python `del d[k]`. -/
def dictErase {α : Type} (l : List (Nat × α)) (k : Nat) : List (Nat × α) :=
  l.filter (fun kv => kv.1 != k)

/-- The mutable state of one `IbApp` instance: the enable flags, the two id
counters (modelled after seeding by `nextValidId`), the three
pending-request tables and the two id-to-symbol lookup tables. -/
structure IbState where
  subRealMD : Bool
  subHistMD : Bool
  nextValidOrderId : Nat
  nextValidReqId : Nat
  requestedContracts : List (Nat × Contract)
  requestedMarketData : List (Nat × Contract)
  requestedHistoricalData : List (Nat × Contract)
  marketDataLookup : List (Nat × String)
  historicalLookup : List (Nat × String)
deriving DecidableEq, Repr

/-- `IbApp.nextReqId`: returns the current request id, then increments. -/
def IbApp.nextReqId (s : IbState) : Nat × IbState :=
  (s.nextValidReqId, { s with nextValidReqId := s.nextValidReqId + 1 })

/-- `IbApp.nextOrderId`: same discipline on the parallel order-id
counter. -/
def IbApp.nextOrderId (s : IbState) : Nat × IbState :=
  (s.nextValidOrderId, { s with nextValidOrderId := s.nextValidOrderId + 1 })

/-- Iterate `nextReqId` `n` times, collecting the ids issued in order. -/
def allocIds : Nat → IbState → List Nat × IbState
  | 0, s => ([], s)
  | n + 1, s =>
    let p := IbApp.nextReqId s
    let q := allocIds n p.2
    (p.1 :: q.1, q.2)

/-- The `for key, value in self.requestedContracts.items()` loop of
`IbApp.verify`: re-request contract details under the same key, then log. -/
def verifyContractsLoop : List (Nat × Contract) → List Effect
  | [] => []
  | (k, v) :: rest =>
    Effect.send (Request.contractDetailsReq k v) ::
    Effect.logInfo (LogMsg.reRequestContract v.symbol) :: verifyContractsLoop rest

/-- The historical-data loop of `IbApp.verify`. -/
def verifyHistLoop : List (Nat × Contract) → List Effect
  | [] => []
  | (k, v) :: rest =>
    Effect.send (Request.historicalDataReq k v) ::
    Effect.logInfo (LogMsg.reRequestHist v.symbol) :: verifyHistLoop rest

/-- The market-data loop of `IbApp.verify`. -/
def verifyMktLoop : List (Nat × Contract) → List Effect
  | [] => []
  | (k, v) :: rest =>
    Effect.send (Request.mktDataReq k v) ::
    Effect.logInfo (LogMsg.reRequestMkt v.symbol) :: verifyMktLoop rest

/-- `IbApp.verify`: the resync path.  Requests the server time, then walks
each pending table re-issuing every entry under its existing key, gated by
the enable flags.  It mutates none of the instance state. -/
def IbApp.verify (s : IbState) : IbState × List Effect :=
  (s,
    [Effect.logInfo LogMsg.requestingServerTime, Effect.send Request.currentTime]
    ++ verifyContractsLoop s.requestedContracts
    ++ (if s.subHistMD then verifyHistLoop s.requestedHistoricalData else [])
    ++ (if s.subRealMD then verifyMktLoop s.requestedMarketData else []))

/-- Body of the security-to-contract construction in `IbApp.start`: copy
symbol, product type and exchange; a `FUT` additionally gets
`tradingClass = Symbol`. -/
def buildContract (sec : SecurityItem) : Contract :=
  let contract := { Contract.empty with
    symbol := sec.Symbol, secType := sec.ProductType, exchange := sec.Exchange }
  if contract.secType == "FUT" then { contract with tradingClass := sec.Symbol }
  else contract

/-- One iteration of the `for sec in items` loop of `IbApp.start`: for an
enabled security, build the contract, allocate a request id, register it in
`requestedContracts` and issue the contract-details request. -/
def IbApp.startStep (s : IbState) (sec : SecurityItem) : IbState × List Effect :=
  if sec.SubscriptionEnabled then
    let contract := buildContract sec
    let p := IbApp.nextReqId s
    ({ p.2 with requestedContracts := dictInsert p.2.requestedContracts p.1 contract },
     [Effect.send (Request.contractDetailsReq p.1 contract)])
  else (s, [])

/-- The validated contract built inside `IbApp.contractDetails`: a fresh
`Contract()` whose six fields are copied from the reply's summary. -/
def validatedOf (cd : ContractDetails) : Contract :=
  { Contract.empty with
    symbol := cd.summary.symbol, secType := cd.summary.secType,
    exchange := cd.summary.exchange, tradingClass := cd.summary.tradingClass,
    lastTradeDateOrContractMonth := cd.summary.lastTradeDateOrContractMonth,
    localSymbol := cd.summary.localSymbol }

/-- `IbApp.contractDetails` handler: warn and stop on an unknown request
id; validate the symbol (or market name) against the original request; on
match, allocate fresh ids and register a market-data request (sent with the
original `contract`) and a historical request (sent with `validated`),
gated by the flags. -/
def IbApp.contractDetails (s : IbState) (reqId : Nat) (cd : ContractDetails) :
    IbState × List Effect :=
  let recv : List Effect := [Effect.logInfo (LogMsg.contractDetailsReceived cd.summary)]
  match dictGet? s.requestedContracts reqId with
  | none => (s, recv ++ [Effect.logWarning (LogMsg.unknownContractDetailsReqId reqId)])
  | some contract =>
    if contract.symbol = cd.summary.symbol ∨ contract.symbol = cd.marketName then
      let validated := validatedOf cd
      let r1 :=
        if s.subRealMD then
          let p := IbApp.nextReqId s
          ({ p.2 with
              marketDataLookup := dictInsert p.2.marketDataLookup p.1 validated.localSymbol,
              requestedMarketData := dictInsert p.2.requestedMarketData p.1 validated },
           [Effect.send (Request.mktDataReq p.1 contract)])
        else (s, ([] : List Effect))
      let r2 :=
        if s.subHistMD then
          let p := IbApp.nextReqId r1.1
          ({ p.2 with
              historicalLookup := dictInsert p.2.historicalLookup p.1 validated.localSymbol,
              requestedHistoricalData := dictInsert p.2.requestedHistoricalData p.1 validated },
           [Effect.send (Request.historicalDataReq p.1 validated)])
        else (r1.1, ([] : List Effect))
      (r2.1, recv ++ r1.2 ++ r2.2)
    else (s, recv ++ [Effect.logWarning (LogMsg.unknownContractReceived cd.summary)])

/-- `IbApp.contractDetailsEnd`: log, then remove the entry from
`requestedContracts` when present. -/
def IbApp.contractDetailsEnd (s : IbState) (reqId : Nat) : IbState × List Effect :=
  (if dictContains s.requestedContracts reqId then
      { s with requestedContracts := dictErase s.requestedContracts reqId }
   else s,
   [Effect.logInfo (LogMsg.contractDetailsEndMsg reqId)])

/-- `IbApp.historicalData`: `sym = self.historicalLookup[reqId]` raises a
key error (`none`) on an unknown id before any effect; otherwise log,
remove the pending entry when present, and upsert the bar to the record
store. -/
def IbApp.historicalData (s : IbState) (reqId : Nat) (bar : BarData) :
    Option (IbState × List Effect) :=
  match dictGet? s.historicalLookup reqId with
  | none => none
  | some sym =>
    let s1 :=
      if dictContains s.requestedHistoricalData reqId then
        { s with requestedHistoricalData := dictErase s.requestedHistoricalData reqId }
      else s
    some (s1,
      [Effect.logInfo (LogMsg.historicalDataMsg sym bar),
       Effect.upsertQuote sym bar.date bar.opn bar.close bar.high bar.low bar.volume bar.barCount])

/-- `IbApp.tickPrice`: `symbol = self.marketDataLookup[tickerId]` raises a
key error (`none`) on an unknown id before any effect; otherwise log the
tick and remove the pending market-data entry when present. -/
def IbApp.tickPrice (s : IbState) (tickerId : Nat) (tickType : Nat) (price : Int) :
    Option (IbState × List Effect) :=
  match dictGet? s.marketDataLookup tickerId with
  | none => none
  | some symbol =>
    let s1 :=
      if dictContains s.requestedMarketData tickerId then
        { s with requestedMarketData := dictErase s.requestedMarketData tickerId }
      else s
    some (s1, [Effect.logInfo (LogMsg.tickPriceMsg symbol tickType price)])

/-- The retry loop of `Utils.reliable`: the current `result`, the Python
`tries` counter, the remaining retries (`10 - tries`, the loop guard
`tries < 10`), and the sleeps performed so far.  `f n` is the result of the
program's `n`-th invocation of the wrapped call (counting from 0); a retry
after incrementing `tries` invokes call number `tries` and sleeps
`2 ^ tries` first.  Returns the final result, the total number of
invocations and the sleep durations in order. -/
def reliableLoop {α : Type} (f : Nat → Option α) :
    Option α → Nat → Nat → List Nat → Option α × Nat × List Nat
  | some v, tries, _, sleeps => (some v, tries + 1, sleeps)
  | none, tries, 0, sleeps => (none, tries + 1, sleeps)
  | none, tries, rem + 1, sleeps =>
    reliableLoop f (f (tries + 1)) (tries + 1) rem (sleeps ++ [2 ^ (tries + 1)])

/-- `Utils.reliable` applied to a wrapped call whose successive results are
`f 0, f 1, ...`: one initial invocation, then the retry loop with
`tries = 0` and guard `tries < 10`. -/
def Utils.reliable {α : Type} (f : Nat → Option α) : Option α × Nat × List Nat :=
  reliableLoop f (f 0) 0 10 []

/-- External stimulus consumed by one iteration of
`InterruptableClient.runnable`: a frame of a given length whose decoding
either succeeds or raises `BadMessage`, a `queue.Empty` timeout that may or
may not find the connection idle past 30s, or a keyboard interrupt raised
during the iteration. -/
inductive LoopEvent where
  | frame : Nat → Bool → LoopEvent
  | emptyTimeout : Bool → LoopEvent
  | interrupt : LoopEvent
deriving DecidableEq, Repr

/-- Observable action of the message loop: the `wrapper.error` log, a
`self.disconnect()` call, the inline `self.conn.disconnect()` of the
`BadMessage` handler, a dispatched frame, the idle liveness probe
(`func()`), or the interrupt handlers. -/
inductive LoopAction where
  | errorLog : LoopAction
  | clientDisconnect : LoopAction
  | connDisconnect : LoopAction
  | interpret : Nat → LoopAction
  | probe : LoopAction
  | interruptHandled : LoopAction
deriving DecidableEq, Repr

/-- Body of the `while` loop of `InterruptableClient.runnable` over a
script of iteration stimuli (the script ends where the loop condition goes
false).  An oversized frame logs an error, calls `self.disconnect()` and
breaks; a decodable frame is interpreted; a `BadMessage` is caught and
calls `self.conn.disconnect()`; an idle timeout runs the probe; an
interrupt runs the interrupt handlers. -/
def runBody (maxLen : Nat) : List LoopEvent → List LoopAction
  | [] => []
  | LoopEvent.frame len ok :: rest =>
    if maxLen < len then [LoopAction.errorLog, LoopAction.clientDisconnect]
    else if ok then LoopAction.interpret len :: runBody maxLen rest
    else LoopAction.connDisconnect :: runBody maxLen rest
  | LoopEvent.emptyTimeout idle :: rest =>
    (if idle then [LoopAction.probe] else []) ++ runBody maxLen rest
  | LoopEvent.interrupt :: rest => LoopAction.interruptHandled :: runBody maxLen rest

/-- `InterruptableClient.runnable`: the loop body inside `try`, followed by
the `finally: self.disconnect()` cleanup, which runs on every exit path. -/
def InterruptableClient.runnable (maxLen : Nat) (events : List LoopEvent) :
    List LoopAction :=
  runBody maxLen events ++ [LoopAction.clientDisconnect]

/-- Is this event a frame longer than the maximum message length? -/
def oversized (maxLen : Nat) : LoopEvent → Bool
  | LoopEvent.frame len _ => decide (maxLen < len)
  | _ => false

/-- Does this effect send a market-data request? -/
def isMktSend : Effect → Bool
  | Effect.send (Request.mktDataReq _ _) => true
  | _ => false

/-- Does this effect send a historical-data request? -/
def isHistSend : Effect → Bool
  | Effect.send (Request.historicalDataReq _ _) => true
  | _ => false

/-- Is this loop action a `self.disconnect()` call? -/
def isClientDisconnect : LoopAction → Bool
  | LoopAction.clientDisconnect => true
  | _ => false

/-- A validated stock contract used as concrete test data. -/
def cABC : Contract :=
  { symbol := "ABC", secType := "STK", exchange := "NASDAQ", tradingClass := "",
    lastTradeDateOrContractMonth := "", localSymbol := "ABC" }

/-- A state with one pending market-data entry (id 5) and one pending
historical entry (id 6), both flags enabled, counter at 10. -/
def sVerifySample : IbState :=
  { subRealMD := true, subHistMD := true, nextValidOrderId := 10, nextValidReqId := 10,
    requestedContracts := [], requestedMarketData := [(5, cABC)],
    requestedHistoricalData := [(6, cABC)],
    marketDataLookup := [(5, "ABC")], historicalLookup := [(6, "ABC")] }

/-- A concrete OHLCV bar. -/
def barSample : BarData :=
  { date := "20201230", opn := 10, high := 12, low := 9, close := 11,
    volume := 1000, barCount := 5 }

/-- A state with one pending historical request (id 7) and its lookup
entry. -/
def sHistSample : IbState :=
  { subRealMD := false, subHistMD := true, nextValidOrderId := 10, nextValidReqId := 10,
    requestedContracts := [], requestedMarketData := [(7, cABC)],
    requestedHistoricalData := [(7, cABC)],
    marketDataLookup := [(7, "ABC")], historicalLookup := [(7, "ABC")] }

/-- The state `sHistSample` after its historical request 7 is satisfied:
the pending entry is gone, the lookup entry survives. -/
def sHistSampleAfter : IbState :=
  { sHistSample with requestedHistoricalData := [] }

/-- The effects of feeding bar `barSample` for request 7 to
`IbApp.historicalData` at `sHistSample`. -/
def effsHistSample : List Effect :=
  [Effect.logInfo (LogMsg.historicalDataMsg "ABC" barSample),
   Effect.upsertQuote "ABC" barSample.date barSample.opn barSample.close barSample.high
     barSample.low barSample.volume barSample.barCount]

/-- The state `sHistSample` after market-data request 7 receives its first
price tick. -/
def sTickSampleAfter : IbState :=
  { sHistSample with requestedMarketData := [] }

/-- A requested futures contract as `IbApp.start` builds it. -/
def cFutReq : Contract :=
  { symbol := "GC", secType := "FUT", exchange := "GLOBEX", tradingClass := "GC",
    lastTradeDateOrContractMonth := "", localSymbol := "" }

/-- A contract-details reply for `cFutReq` whose server-side trading class
differs from the symbol. -/
def cdFut : ContractDetails :=
  { summary := { symbol := "GC", secType := "FUT", exchange := "GLOBEX",
                 tradingClass := "GCX", lastTradeDateOrContractMonth := "202012",
                 localSymbol := "GCZ0" },
    marketName := "GC" }

/-- A state awaiting contract details for the futures request (id 1),
real-time streaming enabled. -/
def sFutSample : IbState :=
  { subRealMD := true, subHistMD := false, nextValidOrderId := 2, nextValidReqId := 2,
    requestedContracts := [(1, cFutReq)], requestedMarketData := [],
    requestedHistoricalData := [], marketDataLookup := [], historicalLookup := [] }

/-- A futures security item from the record store. -/
def secFutItem : SecurityItem :=
  { Symbol := "GC", ProductType := "FUT", Exchange := "GLOBEX", SubscriptionEnabled := true }

/-- A stock security item from the record store. -/
def secStkItem : SecurityItem :=
  { Symbol := "ABC", ProductType := "STK", Exchange := "NASDAQ", SubscriptionEnabled := true }

/-- A state with every table empty. -/
def sEmptyState : IbState :=
  { subRealMD := true, subHistMD := true, nextValidOrderId := 3, nextValidReqId := 3,
    requestedContracts := [], requestedMarketData := [], requestedHistoricalData := [],
    marketDataLookup := [], historicalLookup := [] }

/-- A contract-details reply for a stock. -/
def cdStk : ContractDetails :=
  { summary := cABC, marketName := "ABC" }

/-- A loop script with no oversized frame: one good frame, one idle
timeout, one interrupt. -/
def evSample : List LoopEvent :=
  [LoopEvent.frame 3 true, LoopEvent.emptyTimeout true, LoopEvent.interrupt]

/-- Running the retry loop when every remaining invocation (including the
already-computed current result `f tries`) returns `none`: all `d`
remaining retries are used, sleeping `2 ^ i` for each retry counter value
`i` in `tries + 1, ..., tries + d`. -/
theorem reliableLoop_none_run {α : Type} (f : Nat → Option α) :
    ∀ (d tries : Nat) (sleeps : List Nat),
      (∀ i : Nat, i ≤ d → f (tries + i) = none) →
      reliableLoop f (f tries) tries d sleeps =
        (none, tries + d + 1, sleeps ++ (List.range' (tries + 1) d).map (fun a => 2 ^ a)) := by
  intro d
  induction d with
  | zero =>
    intro tries sleeps h
    have h0 : f tries = none := by simpa using h 0 (Nat.le_refl 0)
    rw [h0]
    simp [reliableLoop]
  | succ d ih =>
    intro tries sleeps h
    have h0 : f tries = none := by simpa using h 0 (Nat.zero_le _)
    rw [h0]
    rw [reliableLoop]
    have hrest : ∀ i : Nat, i ≤ d → f (tries + 1 + i) = none := by
      intro i hi
      have := h (i + 1) (Nat.succ_le_succ hi)
      simpa [Nat.add_assoc, Nat.add_comm 1 i] using this
    rw [ih (tries + 1) (sleeps ++ [2 ^ (tries + 1)]) hrest]
    rw [List.range'_succ]
    simp [Nat.add_assoc, Nat.add_comm]
    omega

/-- Running the retry loop when the next `d` results are `none` and the
one after that is `some v`, with at least `d` retries left: the value is
returned after `d` further invocations, having slept `2 ^ i` for
`i = tries + 1, ..., tries + d`. -/
theorem reliableLoop_found_run {α : Type} (f : Nat → Option α) (v : α) :
    ∀ (d tries rem : Nat) (sleeps : List Nat), d ≤ rem →
      (∀ i : Nat, i < d → f (tries + i) = none) →
      f (tries + d) = some v →
      reliableLoop f (f tries) tries rem sleeps =
        (some v, tries + d + 1, sleeps ++ (List.range' (tries + 1) d).map (fun a => 2 ^ a)) := by
  intro d
  induction d with
  | zero =>
    intro tries rem sleeps _ _ hv
    have h0 : f tries = some v := by simpa using hv
    rw [h0]
    simp [reliableLoop]
  | succ d ih =>
    intro tries rem sleeps hle habs hv
    have h0 : f tries = none := by simpa using habs 0 (Nat.succ_pos d)
    rw [h0]
    cases rem with
    | zero => exact absurd hle (by omega)
    | succ rem =>
      rw [reliableLoop]
      have habs' : ∀ i : Nat, i < d → f (tries + 1 + i) = none := by
        intro i hi
        have := habs (i + 1) (Nat.succ_lt_succ hi)
        simpa [Nat.add_assoc, Nat.add_comm 1 i] using this
      have hv' : f (tries + 1 + d) = some v := by
        simpa [Nat.add_assoc, Nat.add_comm 1 d] using hv
      rw [ih (tries + 1) rem (sleeps ++ [2 ^ (tries + 1)]) (Nat.le_of_succ_le_succ hle) habs' hv']
      rw [List.range'_succ]
      simp [Nat.add_assoc, Nat.add_comm]
      omega

/-- C3: for every `k < 10`, if the wrapped operation returns the absent
sentinel on its first `k` invocations and a value on invocation `k + 1`,
`Utils.reliable` returns that value after exactly `k + 1` invocations,
sleeping `2 ^ attempt` units before each retry for attempts `1, ..., k`
(cumulative sleep `2 ^ 1 + ... + 2 ^ k`). -/
theorem reliable_short_circuits {α : Type} (f : Nat → Option α) (k : Nat) (v : α)
    (hk : k < 10) (habs : ∀ i : Nat, i < k → f i = none) (hv : f k = some v) :
    Utils.reliable f = (some v, k + 1, (List.range' 1 k).map (fun a => 2 ^ a)) := by
  unfold Utils.reliable
  have h := reliableLoop_found_run f v k 0 10 [] (Nat.le_of_lt hk)
    (by intro i hi; simpa using habs i hi) (by simpa using hv)
  simpa using h

/-- Witness for C3 at `k = 3`: a stub absent on its first three calls. -/
theorem reliable_short_circuits_witness :
    Utils.reliable (fun n => if n < 3 then (none : Option Nat) else some 42) =
      (some 42, 3 + 1, (List.range' 1 3).map (fun a => 2 ^ a)) :=
  reliable_short_circuits (fun n => if n < 3 then (none : Option Nat) else some 42)
    3 42 (by decide) (by decide) (by decide)

/-- C2 counterexample: with a stub that always returns the absent
sentinel, `Utils.reliable` makes 11 invocations (1 initial + 10 retries),
not the 10 the claim states, before returning the absent sentinel. -/
theorem reliable_exhaustion_counterexample :
    Utils.reliable (fun _ => (none : Option Nat)) =
      (none, 11, [2, 4, 8, 16, 32, 64, 128, 256, 512, 1024]) ∧
    (Utils.reliable (fun _ => (none : Option Nat))).2.1 ≠ 10 := by
  constructor
  · rfl
  · decide

/-- C2 as amended: for a wrapped operation that returns the absent
sentinel on every invocation, `Utils.reliable` makes exactly 11 attempts
in total (1 initial + 10 retries), sleeping `2 ^ 1, ..., 2 ^ 10` units,
and returns the absent sentinel to the caller without raising. -/
theorem reliable_exhaustion {α : Type} (f : Nat → Option α) (h : ∀ n, f n = none) :
    Utils.reliable f = (none, 11, (List.range' 1 10).map (fun a => 2 ^ a)) := by
  unfold Utils.reliable
  have hh := reliableLoop_none_run f 10 0 [] (by intro i _; simpa using h i)
  simpa using hh

/-- Witness for the amended C2 at the constantly absent stub. -/
theorem reliable_exhaustion_witness :
    Utils.reliable (fun _ => (none : Option Nat)) =
      (none, 11, (List.range' 1 10).map (fun a => 2 ^ a)) :=
  reliable_exhaustion (fun _ => (none : Option Nat)) (fun _ => rfl)

/-- The ids issued by `n` successive `nextReqId` calls are the `n`
consecutive values starting at the current counter. -/
theorem allocIds_fst (n : Nat) : ∀ s : IbState,
    (allocIds n s).1 = (List.range n).map (fun i => s.nextValidReqId + i) := by
  induction n with
  | zero => intro s; rfl
  | succ n ih =>
    intro s
    show s.nextValidReqId :: (allocIds n (IbApp.nextReqId s).2).1 = _
    rw [ih]
    rw [List.range_succ_eq_map]
    simp only [List.map_cons, List.map_map, Nat.add_zero]
    refine congrArg (s.nextValidReqId :: ·) (List.map_congr_left ?_)
    intro a _
    show (IbApp.nextReqId s).2.nextValidReqId + a = s.nextValidReqId + (a + 1)
    simp [IbApp.nextReqId]
    omega

/-- After `n` allocations the request-id counter has advanced by `n`. -/
theorem allocIds_counter (n : Nat) : ∀ s : IbState,
    (allocIds n s).2.nextValidReqId = s.nextValidReqId + n := by
  induction n with
  | zero => intro s; rfl
  | succ n ih =>
    intro s
    show (allocIds n (IbApp.nextReqId s).2).2.nextValidReqId = _
    rw [ih]
    simp [IbApp.nextReqId]
    omega

/-- C6: within one Session, after the counter is seeded, every sequence of
`nextReqId` calls returns pairwise strictly increasing ids — each id is
allocated exactly once (no duplicates, so no reuse), each is strictly
greater than every id returned before it, and the `Nat` counter advances
by one per allocation (no wrap). -/
theorem nextReqId_strictly_increasing (n : Nat) (s : IbState) :
    ((allocIds n s).1).Pairwise (· < ·) ∧ ((allocIds n s).1).Nodup ∧
    (allocIds n s).2.nextValidReqId = s.nextValidReqId + n := by
  have hp : ((allocIds n s).1).Pairwise (· < ·) := by
    rw [allocIds_fst]
    exact (List.pairwise_lt_range n).map _ (fun a b h => by omega)
  exact ⟨hp, hp.imp Nat.ne_of_lt, allocIds_counter n s⟩

/-- C10: `verify` mutates no instance state, so invoking the verify/resync
path twice in succession from the same state, with no intervening replies,
issues exactly the same effect sequence (hence the same re-request set)
both times. -/
theorem verify_idempotent (s : IbState) :
    (IbApp.verify s).1 = s ∧
    (IbApp.verify (IbApp.verify s).1).2 = (IbApp.verify s).2 :=
  ⟨rfl, rfl⟩

/-- A contract-details re-request loop sends no market-data requests. -/
theorem mktSend_not_mem_verifyContractsLoop (i : Nat) (c : Contract) :
    ∀ l : List (Nat × Contract),
      Effect.send (Request.mktDataReq i c) ∉ verifyContractsLoop l := by
  intro l
  induction l with
  | nil => simp [verifyContractsLoop]
  | cons kv rest ih =>
    obtain ⟨k, v⟩ := kv
    simp [verifyContractsLoop, ih]

/-- A historical re-request loop sends no market-data requests. -/
theorem mktSend_not_mem_verifyHistLoop (i : Nat) (c : Contract) :
    ∀ l : List (Nat × Contract),
      Effect.send (Request.mktDataReq i c) ∉ verifyHistLoop l := by
  intro l
  induction l with
  | nil => simp [verifyHistLoop]
  | cons kv rest ih =>
    obtain ⟨k, v⟩ := kv
    simp [verifyHistLoop, ih]

/-- A contract-details re-request loop sends no historical requests. -/
theorem histSend_not_mem_verifyContractsLoop (i : Nat) (c : Contract) :
    ∀ l : List (Nat × Contract),
      Effect.send (Request.historicalDataReq i c) ∉ verifyContractsLoop l := by
  intro l
  induction l with
  | nil => simp [verifyContractsLoop]
  | cons kv rest ih =>
    obtain ⟨k, v⟩ := kv
    simp [verifyContractsLoop, ih]

/-- A market-data re-request loop sends no historical requests. -/
theorem histSend_not_mem_verifyMktLoop (i : Nat) (c : Contract) :
    ∀ l : List (Nat × Contract),
      Effect.send (Request.historicalDataReq i c) ∉ verifyMktLoop l := by
  intro l
  induction l with
  | nil => simp [verifyMktLoop]
  | cons kv rest ih =>
    obtain ⟨k, v⟩ := kv
    simp [verifyMktLoop, ih]

/-- Every market-data re-request sent by the market-data loop carries a
key/contract pair taken from the table it walks. -/
theorem mem_verifyMktLoop_send (i : Nat) (c : Contract) :
    ∀ l : List (Nat × Contract),
      Effect.send (Request.mktDataReq i c) ∈ verifyMktLoop l → (i, c) ∈ l := by
  intro l
  induction l with
  | nil => simp [verifyMktLoop]
  | cons kv rest ih =>
    obtain ⟨k, v⟩ := kv
    intro h
    simp only [verifyMktLoop, List.mem_cons] at h
    rcases h with h | h | h
    · simp only [Effect.send.injEq, Request.mktDataReq.injEq] at h
      simp [h.1, h.2]
    · exact absurd h (by simp)
    · exact List.mem_cons_of_mem _ (ih h)

/-- Every historical re-request sent by the historical loop carries a
key/contract pair taken from the table it walks. -/
theorem mem_verifyHistLoop_send (i : Nat) (c : Contract) :
    ∀ l : List (Nat × Contract),
      Effect.send (Request.historicalDataReq i c) ∈ verifyHistLoop l → (i, c) ∈ l := by
  intro l
  induction l with
  | nil => simp [verifyHistLoop]
  | cons kv rest ih =>
    obtain ⟨k, v⟩ := kv
    intro h
    simp only [verifyHistLoop, List.mem_cons] at h
    rcases h with h | h | h
    · simp only [Effect.send.injEq, Request.historicalDataReq.injEq] at h
      simp [h.1, h.2]
    · exact absurd h (by simp)
    · exact List.mem_cons_of_mem _ (ih h)

/-- The market-data loop emits exactly one market-data send per table
entry. -/
theorem countP_verifyMktLoop_mkt :
    ∀ l : List (Nat × Contract), (verifyMktLoop l).countP isMktSend = l.length := by
  intro l
  induction l with
  | nil => rfl
  | cons kv rest ih =>
    obtain ⟨k, v⟩ := kv
    simp [verifyMktLoop, List.countP_cons, isMktSend, ih]

/-- The historical loop emits exactly one historical send per table
entry. -/
theorem countP_verifyHistLoop_hist :
    ∀ l : List (Nat × Contract), (verifyHistLoop l).countP isHistSend = l.length := by
  intro l
  induction l with
  | nil => rfl
  | cons kv rest ih =>
    obtain ⟨k, v⟩ := kv
    simp [verifyHistLoop, List.countP_cons, isHistSend, ih]

/-- The contract loop emits no market-data sends. -/
theorem countP_verifyContractsLoop_mkt :
    ∀ l : List (Nat × Contract), (verifyContractsLoop l).countP isMktSend = 0 := by
  intro l
  induction l with
  | nil => rfl
  | cons kv rest ih =>
    obtain ⟨k, v⟩ := kv
    simp [verifyContractsLoop, List.countP_cons, isMktSend, ih]

/-- The contract loop emits no historical sends. -/
theorem countP_verifyContractsLoop_hist :
    ∀ l : List (Nat × Contract), (verifyContractsLoop l).countP isHistSend = 0 := by
  intro l
  induction l with
  | nil => rfl
  | cons kv rest ih =>
    obtain ⟨k, v⟩ := kv
    simp [verifyContractsLoop, List.countP_cons, isHistSend, ih]

/-- The historical loop emits no market-data sends. -/
theorem countP_verifyHistLoop_mkt :
    ∀ l : List (Nat × Contract), (verifyHistLoop l).countP isMktSend = 0 := by
  intro l
  induction l with
  | nil => rfl
  | cons kv rest ih =>
    obtain ⟨k, v⟩ := kv
    simp [verifyHistLoop, List.countP_cons, isMktSend, ih]

/-- The market-data loop emits no historical sends. -/
theorem countP_verifyMktLoop_hist :
    ∀ l : List (Nat × Contract), (verifyMktLoop l).countP isHistSend = 0 := by
  intro l
  induction l with
  | nil => rfl
  | cons kv rest ih =>
    obtain ⟨k, v⟩ := kv
    simp [verifyMktLoop, List.countP_cons, isHistSend, ih]

/-- C1 counterexample: at a state with one pending market-data entry
(key 5) and one pending historical entry (key 6), both below the current
counter 10, `verify` re-issues both requests under their existing keys 5
and 6 — ids already in use before the resync — and does not advance the
request-id counter, refuting that each re-request carries a newly
allocated id distinct from every id used before. -/
theorem verify_reuses_ids_counterexample :
    Effect.send (Request.mktDataReq 5 cABC) ∈ (IbApp.verify sVerifySample).2 ∧
    dictContains sVerifySample.requestedMarketData 5 = true ∧
    Effect.send (Request.historicalDataReq 6 cABC) ∈ (IbApp.verify sVerifySample).2 ∧
    dictContains sVerifySample.requestedHistoricalData 6 = true ∧
    5 < sVerifySample.nextValidReqId ∧ 6 < sVerifySample.nextValidReqId ∧
    (IbApp.verify sVerifySample).1.nextValidReqId = sVerifySample.nextValidReqId := by
  decide

/-- C1 as amended: with both enable flags set, `verify` issues exactly one
market-data re-request per pending market-data entry (N in total) and one
historical re-request per pending historical entry (M in total), each
re-request reusing the request id and contract under which the entry is
already registered — no new ids are allocated and the state, counter
included, is unchanged. -/
theorem verify_rerequest_counts (s : IbState)
    (hr : s.subRealMD = true) (hh : s.subHistMD = true) :
    (IbApp.verify s).1 = s ∧
    ((IbApp.verify s).2).countP isMktSend = s.requestedMarketData.length ∧
    ((IbApp.verify s).2).countP isHistSend = s.requestedHistoricalData.length ∧
    (∀ i c, Effect.send (Request.mktDataReq i c) ∈ (IbApp.verify s).2 →
      (i, c) ∈ s.requestedMarketData) ∧
    (∀ i c, Effect.send (Request.historicalDataReq i c) ∈ (IbApp.verify s).2 →
      (i, c) ∈ s.requestedHistoricalData) := by
  refine ⟨rfl, ?_, ?_, ?_, ?_⟩
  · simp [IbApp.verify, hr, hh, List.countP_append, List.countP_cons, isMktSend,
      countP_verifyContractsLoop_mkt, countP_verifyHistLoop_mkt, countP_verifyMktLoop_mkt]
  · simp [IbApp.verify, hr, hh, List.countP_append, List.countP_cons, isHistSend,
      countP_verifyContractsLoop_hist, countP_verifyHistLoop_hist, countP_verifyMktLoop_hist]
  · intro i c hmem
    have hv : (IbApp.verify s).2 =
        [Effect.logInfo LogMsg.requestingServerTime, Effect.send Request.currentTime]
        ++ verifyContractsLoop s.requestedContracts
        ++ verifyHistLoop s.requestedHistoricalData
        ++ verifyMktLoop s.requestedMarketData := by
      simp [IbApp.verify, hr, hh]
    rw [hv] at hmem
    rcases List.mem_append.mp hmem with h123 | h
    · rcases List.mem_append.mp h123 with h12 | h
      · rcases List.mem_append.mp h12 with h | h
        · simp at h
        · exact absurd h (mktSend_not_mem_verifyContractsLoop i c _)
      · exact absurd h (mktSend_not_mem_verifyHistLoop i c _)
    · exact mem_verifyMktLoop_send i c _ h
  · intro i c hmem
    have hv : (IbApp.verify s).2 =
        [Effect.logInfo LogMsg.requestingServerTime, Effect.send Request.currentTime]
        ++ verifyContractsLoop s.requestedContracts
        ++ verifyHistLoop s.requestedHistoricalData
        ++ verifyMktLoop s.requestedMarketData := by
      simp [IbApp.verify, hr, hh]
    rw [hv] at hmem
    rcases List.mem_append.mp hmem with h123 | h
    · rcases List.mem_append.mp h123 with h12 | h
      · rcases List.mem_append.mp h12 with h | h
        · simp at h
        · exact absurd h (histSend_not_mem_verifyContractsLoop i c _)
      · exact mem_verifyHistLoop_send i c _ h
    · exact absurd h (histSend_not_mem_verifyMktLoop i c _)

/-- Witness for the amended C1 at `sVerifySample` (N = M = 1). -/
theorem verify_rerequest_counts_witness :
    (IbApp.verify sVerifySample).1 = sVerifySample ∧
    ((IbApp.verify sVerifySample).2).countP isMktSend =
      sVerifySample.requestedMarketData.length ∧
    ((IbApp.verify sVerifySample).2).countP isHistSend =
      sVerifySample.requestedHistoricalData.length ∧
    (∀ i c, Effect.send (Request.mktDataReq i c) ∈ (IbApp.verify sVerifySample).2 →
      (i, c) ∈ sVerifySample.requestedMarketData) ∧
    (∀ i c, Effect.send (Request.historicalDataReq i c) ∈ (IbApp.verify sVerifySample).2 →
      (i, c) ∈ sVerifySample.requestedHistoricalData) :=
  verify_rerequest_counts sVerifySample rfl rfl

/-- Erasing a key from a dict leaves no entry under that key. -/
theorem dictContains_dictErase {α : Type} (k : Nat) :
    ∀ l : List (Nat × α), dictContains (dictErase l k) k = false := by
  intro l
  induction l with
  | nil => rfl
  | cons kv rest ih =>
    by_cases h : kv.1 = k
    · simp only [dictErase, List.filter_cons, h] at ih ⊢
      simpa [bne] using ih
    · have hb : (kv.1 == k) = false := by simpa using h
      simp only [dictErase, List.filter_cons, bne, hb, Bool.not_false, if_true] at ih ⊢
      simp [dictContains, List.find?_cons, hb, ih]

/-- Equation for `IbApp.historicalData` when the lookup succeeds. -/
theorem historicalData_some {s : IbState} {reqId : Nat} {bar : BarData} {sym : String}
    (hget : dictGet? s.historicalLookup reqId = some sym) :
    IbApp.historicalData s reqId bar =
      some (if dictContains s.requestedHistoricalData reqId then
              { s with requestedHistoricalData := dictErase s.requestedHistoricalData reqId }
            else s,
        [Effect.logInfo (LogMsg.historicalDataMsg sym bar),
         Effect.upsertQuote sym bar.date bar.opn bar.close bar.high bar.low
           bar.volume bar.barCount]) := by
  unfold IbApp.historicalData
  rw [hget]

/-- Equation for `IbApp.tickPrice` when the lookup succeeds. -/
theorem tickPrice_some {s : IbState} {tickerId : Nat} {tickType : Nat} {price : Int}
    {symbol : String} (hget : dictGet? s.marketDataLookup tickerId = some symbol) :
    IbApp.tickPrice s tickerId tickType price =
      some (if dictContains s.requestedMarketData tickerId then
              { s with requestedMarketData := dictErase s.requestedMarketData tickerId }
            else s,
        [Effect.logInfo (LogMsg.tickPriceMsg symbol tickType price)]) := by
  unfold IbApp.tickPrice
  rw [hget]

/-- C4 counterexample: request 7's terminal `historicalData` bar (and
likewise the first `tickPrice`) removes only the pending-request entry;
the id-to-symbol entry under key 7 survives in `historicalLookup`
(respectively `marketDataLookup`), so a table entry does survive its
stream's terminal message. -/
theorem lookup_survives_terminal_counterexample :
    IbApp.historicalData sHistSample 7 barSample =
      some (sHistSampleAfter, effsHistSample) ∧
    dictContains sHistSampleAfter.historicalLookup 7 = true ∧
    IbApp.tickPrice sHistSample 7 0 100 =
      some (sTickSampleAfter, [Effect.logInfo (LogMsg.tickPriceMsg "ABC" 0 100)]) ∧
    dictContains sTickSampleAfter.marketDataLookup 7 = true := by
  decide

/-- C4 as amended: each terminal message clears its pending-request table
entry — `contractDetailsEnd` removes the `requestedContracts` entry, the
`historicalData` bar removes the `requestedHistoricalData` entry, and the
first `tickPrice` removes the `requestedMarketData` entry — but the
id-to-symbol lookup tables `historicalLookup` and `marketDataLookup` are
never pruned and survive unchanged. -/
theorem pending_removed_on_terminal (s : IbState) (reqId : Nat) (bar : BarData)
    (tickType : Nat) (price : Int) :
    dictContains (IbApp.contractDetailsEnd s reqId).1.requestedContracts reqId = false ∧
    (∀ s1 effs, IbApp.historicalData s reqId bar = some (s1, effs) →
      dictContains s1.requestedHistoricalData reqId = false ∧
      s1.historicalLookup = s.historicalLookup ∧
      s1.marketDataLookup = s.marketDataLookup) ∧
    (∀ s1 effs, IbApp.tickPrice s reqId tickType price = some (s1, effs) →
      dictContains s1.requestedMarketData reqId = false ∧
      s1.marketDataLookup = s.marketDataLookup ∧
      s1.historicalLookup = s.historicalLookup) := by
  refine ⟨?_, ?_, ?_⟩
  · unfold IbApp.contractDetailsEnd
    by_cases hc : dictContains s.requestedContracts reqId = true
    · simp only [hc, if_true]
      exact dictContains_dictErase reqId _
    · have hc' : dictContains s.requestedContracts reqId = false := by
        simpa using hc
      simp [hc']
  · intro s1 effs h
    cases hget : dictGet? s.historicalLookup reqId with
    | none =>
      have hnone : IbApp.historicalData s reqId bar = none := by
        unfold IbApp.historicalData
        rw [hget]
      rw [hnone] at h
      cases h
    | some sym =>
      rw [historicalData_some hget] at h
      have hs1 := congrArg (fun p => p.1) (Option.some.inj h)
      simp only at hs1
      rw [← hs1]
      by_cases hc : dictContains s.requestedHistoricalData reqId = true
      · simp only [hc, if_true]
        exact ⟨dictContains_dictErase reqId _, by trivial, by trivial⟩
      · have hc' : dictContains s.requestedHistoricalData reqId = false := by
          simpa using hc
        simp [hc']
  · intro s1 effs h
    cases hget : dictGet? s.marketDataLookup reqId with
    | none =>
      have hnone : IbApp.tickPrice s reqId tickType price = none := by
        unfold IbApp.tickPrice
        rw [hget]
      rw [hnone] at h
      cases h
    | some symbol =>
      rw [tickPrice_some hget] at h
      have hs1 := congrArg (fun p => p.1) (Option.some.inj h)
      simp only at hs1
      rw [← hs1]
      by_cases hc : dictContains s.requestedMarketData reqId = true
      · simp only [hc, if_true]
        exact ⟨dictContains_dictErase reqId _, by trivial, by trivial⟩
      · have hc' : dictContains s.requestedMarketData reqId = false := by
          simpa using hc
        simp [hc']

/-- Witness for the amended C4 at `sHistSample`, request 7. -/
theorem pending_removed_on_terminal_witness :
    dictContains (IbApp.contractDetailsEnd sHistSample 7).1.requestedContracts 7 = false ∧
    (dictContains sHistSampleAfter.requestedHistoricalData 7 = false ∧
     sHistSampleAfter.historicalLookup = sHistSample.historicalLookup ∧
     sHistSampleAfter.marketDataLookup = sHistSample.marketDataLookup) ∧
    (dictContains sTickSampleAfter.requestedMarketData 7 = false ∧
     sTickSampleAfter.marketDataLookup = sHistSample.marketDataLookup ∧
     sTickSampleAfter.historicalLookup = sHistSample.historicalLookup) :=
  ⟨(pending_removed_on_terminal sHistSample 7 barSample 0 100).1,
   (pending_removed_on_terminal sHistSample 7 barSample 0 100).2.1
     sHistSampleAfter effsHistSample (by decide),
   (pending_removed_on_terminal sHistSample 7 barSample 0 100).2.2
     sTickSampleAfter [Effect.logInfo (LogMsg.tickPriceMsg "ABC" 0 100)] (by decide)⟩

/-- C5: an inbound `contractDetails` whose request id is absent from the
contract-lookup table only logs the arrival and a warning: the returned
state is the input state unchanged (all tables, counters) and no request
is sent. -/
theorem contractDetails_unknown_reqId (s : IbState) (reqId : Nat) (cd : ContractDetails)
    (h : dictGet? s.requestedContracts reqId = none) :
    IbApp.contractDetails s reqId cd =
      (s, [Effect.logInfo (LogMsg.contractDetailsReceived cd.summary),
           Effect.logWarning (LogMsg.unknownContractDetailsReqId reqId)]) ∧
    (∀ r : Request, Effect.send r ∉ (IbApp.contractDetails s reqId cd).2) := by
  have heq : IbApp.contractDetails s reqId cd =
      (s, [Effect.logInfo (LogMsg.contractDetailsReceived cd.summary),
           Effect.logWarning (LogMsg.unknownContractDetailsReqId reqId)]) := by
    unfold IbApp.contractDetails
    rw [h]
    rfl
  refine ⟨heq, ?_⟩
  intro r
  rw [heq]
  simp

/-- Witness for C5 at an empty contract-lookup table and request id 42. -/
theorem contractDetails_unknown_reqId_witness :
    IbApp.contractDetails sEmptyState 42 cdStk =
      (sEmptyState, [Effect.logInfo (LogMsg.contractDetailsReceived cdStk.summary),
        Effect.logWarning (LogMsg.unknownContractDetailsReqId 42)]) ∧
    (∀ r : Request, Effect.send r ∉ (IbApp.contractDetails sEmptyState 42 cdStk).2) :=
  contractDetails_unknown_reqId sEmptyState 42 cdStk rfl

/-- C7: `historicalData` and `tickPrice` index their lookup table on the
first line, so an id absent from `historicalLookup` (respectively
`marketDataLookup`) raises the key error (`none`) before any logging,
table removal or record-store call is performed. -/
theorem handlers_raise_on_unknown_id (s : IbState) (reqId : Nat) (bar : BarData)
    (tickType : Nat) (price : Int) :
    (dictGet? s.historicalLookup reqId = none →
      IbApp.historicalData s reqId bar = none) ∧
    (dictGet? s.marketDataLookup reqId = none →
      IbApp.tickPrice s reqId tickType price = none) := by
  constructor
  · intro hh
    unfold IbApp.historicalData
    rw [hh]
  · intro hm
    unfold IbApp.tickPrice
    rw [hm]

/-- Witness for C7 at `sVerifySample`, where each id is live in the other
handler's table: id 5 is pending market data (absent from
`historicalLookup`) and id 6 is pending historical data (absent from
`marketDataLookup`). -/
theorem handlers_raise_on_unknown_id_witness :
    IbApp.historicalData sVerifySample 5 barSample = none ∧
    IbApp.tickPrice sVerifySample 6 0 100 = none :=
  ⟨(handlers_raise_on_unknown_id sVerifySample 5 barSample 0 100).1 (by decide),
   (handlers_raise_on_unknown_id sVerifySample 6 barSample 0 100).2 (by decide)⟩

/-- C8 counterexample: a futures contract-details reply whose server-side
trading class ("GCX") differs from the symbol ("GC") passes validation and
is stored with `tradingClass ≠ symbol`: the FUT normalization is not
applied after validation. -/
theorem fut_tradingClass_counterexample :
    (validatedOf cdFut).secType = "FUT" ∧
    (validatedOf cdFut).tradingClass ≠ (validatedOf cdFut).symbol ∧
    dictGet? (IbApp.contractDetails sFutSample 1 cdFut).1.requestedMarketData 2 =
      some (validatedOf cdFut) := by
  decide

/-- C8 as amended: the FUT trading-class rule applies at request-building
time in `start` — a future's contract gets `tradingClass = Symbol`, a
non-future's trading class is left at the provided default — while the
validated contract built from a reply takes its trading class verbatim
from the server's summary for every product type. -/
theorem fut_tradingClass_rule (sec : SecurityItem) (cd : ContractDetails) :
    (sec.ProductType = "FUT" → (buildContract sec).tradingClass = sec.Symbol) ∧
    (sec.ProductType ≠ "FUT" →
      (buildContract sec).tradingClass = Contract.empty.tradingClass) ∧
    (validatedOf cd).tradingClass = cd.summary.tradingClass := by
  refine ⟨?_, ?_, rfl⟩
  · intro h
    simp [buildContract, h]
  · intro h
    have hb : (sec.ProductType == "FUT") = false := by
      simpa using h
    simp [buildContract, hb]

/-- Witness for the amended C8 at a futures and a stock security item. -/
theorem fut_tradingClass_rule_witness :
    (buildContract secFutItem).tradingClass = secFutItem.Symbol ∧
    (buildContract secStkItem).tradingClass = Contract.empty.tradingClass ∧
    (validatedOf cdFut).tradingClass = cdFut.summary.tradingClass :=
  ⟨(fut_tradingClass_rule secFutItem cdFut).1 rfl,
   (fut_tradingClass_rule secStkItem cdFut).2.1 (by decide),
   (fut_tradingClass_rule secFutItem cdFut).2.2⟩

/-- A loop script with no oversized frame produces no `self.disconnect()`
call inside the loop body. -/
theorem runBody_no_disconnect (maxLen : Nat) :
    ∀ events : List LoopEvent, (∀ e ∈ events, oversized maxLen e = false) →
      (runBody maxLen events).countP isClientDisconnect = 0 := by
  intro events
  induction events with
  | nil => intro _; rfl
  | cons e rest ih =>
    intro h
    have hrest := ih (fun e' he' => h e' (List.mem_cons_of_mem _ he'))
    have he := h e (List.mem_cons_self e rest)
    cases e with
    | frame len ok =>
      have hlen : ¬ (maxLen < len) := by
        simpa [oversized] using he
      cases ok with
      | true => simp [runBody, hlen, List.countP_cons, isClientDisconnect, hrest]
      | false => simp [runBody, hlen, List.countP_cons, isClientDisconnect, hrest]
    | emptyTimeout idle =>
      cases idle with
      | true =>
        simp [runBody, List.countP_cons, List.countP_append, isClientDisconnect, hrest]
      | false => simp [runBody, hrest]
    | interrupt => simp [runBody, List.countP_cons, isClientDisconnect, hrest]

/-- C9 counterexample: when the loop terminates on an oversized frame
(length 6 against a maximum of 5), `self.disconnect()` runs twice — once
inline before the `break` and once in the `finally` cleanup — so the
transport disconnect is not invoked exactly once on that exit. -/
theorem runnable_double_disconnect_counterexample :
    InterruptableClient.runnable 5 [LoopEvent.frame 6 true] =
      [LoopAction.errorLog, LoopAction.clientDisconnect, LoopAction.clientDisconnect] ∧
    (InterruptableClient.runnable 5 [LoopEvent.frame 6 true]).countP
      isClientDisconnect ≠ 1 := by
  decide

/-- C9 as amended: on every exit of the message loop the guaranteed
`finally` cleanup invokes `self.disconnect()`, so at least one disconnect
always happens; it is exactly one precisely when the loop was not
terminated by an oversized frame (normal exit, undecodable frame, idle
probes, or interrupt), since the oversized-frame path also disconnects
inline before breaking. -/
theorem runnable_disconnects_on_exit (maxLen : Nat) (events : List LoopEvent) :
    1 ≤ (InterruptableClient.runnable maxLen events).countP isClientDisconnect ∧
    ((∀ e ∈ events, oversized maxLen e = false) →
      (InterruptableClient.runnable maxLen events).countP isClientDisconnect = 1) := by
  constructor
  · unfold InterruptableClient.runnable
    rw [List.countP_append]
    simp [List.countP_cons, isClientDisconnect]
  · intro h
    unfold InterruptableClient.runnable
    rw [List.countP_append, runBody_no_disconnect maxLen events h]
    rfl

/-- Witness for the amended C9 at a script with a good frame, an idle
timeout and an interrupt. -/
theorem runnable_disconnects_on_exit_witness :
    1 ≤ (InterruptableClient.runnable 5 evSample).countP isClientDisconnect ∧
    (InterruptableClient.runnable 5 evSample).countP isClientDisconnect = 1 :=
  ⟨(runnable_disconnects_on_exit 5 evSample).1,
   (runnable_disconnects_on_exit 5 evSample).2 (by decide)⟩
